import Mathlib

/-!
Shallow embedding of `src/sequence/port_sequence.rs` from the knock-rs
repository: the `PortSequenceDetector` structure, its constructor `new`,
and the two `SequenceDetector` operations `add_sequence` and
`match_sequence`.

Modelling conventions:
* `i32` port numbers are modelled as `Int` (ports are only compared for
  equality and membership, never subject to machine arithmetic here).
* `u64` timestamps and the timeout are modelled as `Nat`; the one place
  the code performs `u64` subtraction (`current_time - timeout` in the
  expiry check) is modelled by `u64Sub`, which returns `none` exactly when
  the subtraction would underflow (a panic under debug assertions).
* `HashMap<String, V>` is modelled as a function `String → Option V`;
  `HashSet<i32>` as a `Finset Int`.
* The wall-clock read `SystemTime::now().duration_since(UNIX_EPOCH)`
  is modelled by passing the current time (whole seconds since the epoch)
  as an explicit argument `current_time`; its `unwrap()` succeeding is
  part of the "clock is readable" precondition, outside the embedding.
* The `println!` notification emitted on a match names the matched rule;
  this observable output is modelled by the `matchedRule` field of
  `MatchOutcome` (the index of the rule the loop selected), alongside the
  `Bool` the function actually returns.
-/

namespace KnockRs

/-- `Rule` from the configuration: name, ordered port sequence, command. -/
structure Rule where
  name : String
  sequence : List Int
  command : String

/-- `Config` consumed by `PortSequenceDetector::new`. -/
structure Config where
  interface : String
  timeout : Nat
  rules : List Rule

/-- The state of `PortSequenceDetector`. -/
structure PortSequenceDetector where
  timeout : Nat
  sequence_set : Finset Int
  sequence_rules : List (List Int)
  client_sequences : String → Option (List Int)
  client_timeout : String → Option Nat

/-- Update one key of a map modelled as `String → Option α`. -/
def mapUpdate {α : Type} (m : String → Option α) (k : String) (v : Option α) :
    String → Option α :=
  fun x => if x = k then v else m x

/-- Rust `Vec::ends_with`: `v.ends_with(needle)` holds when the last
`needle.len()` elements of `v` are exactly `needle`
(`v.len() >= needle.len() && v[v.len()-needle.len()..] == needle`). -/
def endsWith (v needle : List Int) : Bool :=
  decide (needle.length ≤ v.length) &&
    decide (v.drop (v.length - needle.length) = needle)

/-- The `for rule in &self.sequence_rules` loop of `match_sequence`:
index of the first rule (in configuration order) whose sequence is a
suffix of `seq`, `none` if no rule matches. -/
def firstMatch : List (List Int) → List Int → Option Nat
  | [], _ => none
  | r :: rs, seq =>
      if endsWith seq r then some 0 else (firstMatch rs seq).map (· + 1)

/-- `u64` subtraction `a - b`: `none` exactly on underflow (which panics
under debug assertions). -/
def u64Sub (a b : Nat) : Option Nat :=
  if b ≤ a then some (a - b) else none

/-- Result of `match_sequence`: the returned `Bool`, together with the
index of the rule named in the emitted match notification (`none` when no
match notification was printed). -/
structure MatchOutcome where
  matched : Bool
  matchedRule : Option Nat
deriving DecidableEq

/-- `PortSequenceDetector::new`: collect each rule's sequence in order,
insert every port of every rule into `sequence_set`, copy the timeout,
start with empty per-client maps. -/
def PortSequenceDetector.new (config : Config) : PortSequenceDetector :=
  { timeout := config.timeout
    sequence_set :=
      config.rules.foldl
        (fun acc rule => rule.sequence.foldl (fun a p => insert p a) acc) ∅
    sequence_rules := config.rules.map (fun rule => rule.sequence)
    client_sequences := fun _ => none
    client_timeout := fun _ => none }

/-- `match_sequence(&mut self, client_ip) -> bool`.  Looks up the client's
sequence; if present, tests the rules in configuration order, clearing the
sequence and returning `true` on the first suffix match; otherwise checks
expiry: if a start time is recorded and `current_time - start > timeout`,
clears the sequence and removes the start-time entry.  Returns the
outcome and the updated state; `none` models the call aborting on `u64`
underflow in the expiry subtraction. -/
def matchSequence (s : PortSequenceDetector) (client_ip : String)
    (current_time : Nat) : Option (MatchOutcome × PortSequenceDetector) :=
  match s.client_sequences client_ip with
  | none => some (⟨false, none⟩, s)
  | some seq =>
    match firstMatch s.sequence_rules seq with
    | some i =>
        some (⟨true, some i⟩,
          { s with client_sequences :=
              mapUpdate s.client_sequences client_ip (some []) })
    | none =>
      match s.client_timeout client_ip with
      | none => some (⟨false, none⟩, s)
      | some started =>
        match u64Sub current_time started with
        | none => none
        | some elapsed =>
          if s.timeout < elapsed then
            some (⟨false, none⟩,
              { s with
                  client_sequences :=
                    mapUpdate s.client_sequences client_ip (some [])
                  client_timeout :=
                    mapUpdate s.client_timeout client_ip none })
          else
            some (⟨false, none⟩, s)

/-- `add_sequence(&mut self, client_ip, sequence)`.  A port not in
`sequence_set` is filtered out before touching any state; otherwise the
port is appended to the client's sequence (entry created if absent), the
start time is set via `or_insert` (only if absent), and `match_sequence`
is invoked for the client (its returned `Bool` is discarded). -/
def addSequence (s : PortSequenceDetector) (client_ip : String) (port : Int)
    (current_time : Nat) : Option PortSequenceDetector :=
  if port ∈ s.sequence_set then
    let newSeq := ((s.client_sequences client_ip).getD []) ++ [port]
    let newStart :=
      match s.client_timeout client_ip with
      | some t0 => t0
      | none => current_time
    let s1 : PortSequenceDetector :=
      { s with
          client_sequences := mapUpdate s.client_sequences client_ip (some newSeq)
          client_timeout := mapUpdate s.client_timeout client_ip (some newStart) }
    (matchSequence s1 client_ip current_time).map (fun r => r.2)
  else
    some s

/-! ### Concrete configurations and states used as test inputs -/

/-- Client identifier used in concrete instantiations. -/
def ip1 : String := "10.0.0.1"

/-- A client identifier distinct from `ip1`. -/
def ipNoise : String := "8.8.8.8"

/-- Client identifier for the stale-clock state below. -/
def ipStale : String := "198.51.100.7"

/-- The configuration from the repository's own tests: timeout 5,
rules `[1,2,3]` and `[3,5,6]`. -/
def exampleConfig : Config :=
  { interface := "enp3s0"
    timeout := 5
    rules :=
      [{ name := "enable ssh", sequence := [1, 2, 3], command := "ls -lh" },
       { name := "disable ssh", sequence := [3, 5, 6], command := "du -sh *" }] }

/-- A configuration with no rules at all. -/
def emptyConfig : Config := { interface := "eth0", timeout := 7, rules := [] }

/-- A freshly constructed detector for `exampleConfig`. -/
def exampleDetector : PortSequenceDetector := PortSequenceDetector.new exampleConfig

/-- A detector state for `exampleConfig` where client `ip1` has
accumulated `[1,3,5,6]` (which ends with rule `[3,5,6]`) since time 100. -/
def exampleTracking : PortSequenceDetector :=
  { timeout := 5
    sequence_set := {1, 2, 3, 5, 6}
    sequence_rules := [[1, 2, 3], [3, 5, 6]]
    client_sequences := mapUpdate (fun _ => none) ip1 (some [1, 3, 5, 6])
    client_timeout := mapUpdate (fun _ => none) ip1 (some 100) }

/-- A detector state where client `ip1` has accumulated `[1,3]` (matching
no rule) since time 100. -/
def exampleStalled : PortSequenceDetector :=
  { timeout := 5
    sequence_set := {1, 2, 3, 5, 6}
    sequence_rules := [[1, 2, 3], [3, 5, 6]]
    client_sequences := mapUpdate (fun _ => none) ip1 (some [1, 3])
    client_timeout := mapUpdate (fun _ => none) ip1 (some 100) }

/-- `exampleTracking` after client `ip1`'s sequence has been cleared by a
match (the start-time entry is untouched). -/
def exampleCleared : PortSequenceDetector :=
  { exampleTracking with
      client_sequences := mapUpdate exampleTracking.client_sequences ip1 (some []) }

/-- A post-match style state: client `ipStale` has a present-but-empty
sequence and a stale start-time entry recorded at time 0. -/
def c5State : PortSequenceDetector :=
  { timeout := 5
    sequence_set := {1, 2, 3}
    sequence_rules := [[1, 2, 3]]
    client_sequences := mapUpdate (fun _ => none) ipStale (some [])
    client_timeout := mapUpdate (fun _ => none) ipStale (some 0) }

/-! ### Helper lemmas -/

theorem endsWith_iff (v r : List Int) : endsWith v r = true ↔ r <:+ v := by
  unfold endsWith
  simp only [Bool.and_eq_true, decide_eq_true_eq]
  constructor
  · rintro ⟨hlen, hdrop⟩
    exact hdrop ▸ List.drop_suffix _ _
  · rintro ⟨u, rfl⟩
    refine ⟨by simp, ?_⟩
    have h1 : (u ++ r).length - r.length = u.length := by simp
    rw [h1, List.drop_left]

theorem firstMatch_eq_none_iff (rules : List (List Int)) (seq : List Int) :
    firstMatch rules seq = none ↔ ∀ r ∈ rules, endsWith seq r = false := by
  induction rules with
  | nil => simp [firstMatch]
  | cons r rs ih =>
    cases h : endsWith seq r with
    | true => simp [firstMatch, h]
    | false => simp [firstMatch, h, ih]

theorem firstMatch_exists (rules : List (List Int)) (seq r : List Int)
    (hr : r ∈ rules) (hm : endsWith seq r = true) :
    ∃ i, firstMatch rules seq = some i := by
  cases hfm : firstMatch rules seq with
  | some i => exact ⟨i, rfl⟩
  | none =>
    have := (firstMatch_eq_none_iff rules seq).mp hfm r hr
    rw [hm] at this
    cases this

theorem firstMatch_spec (rules : List (List Int)) (seq : List Int) (i : Nat)
    (h : firstMatch rules seq = some i) :
    i < rules.length ∧ endsWith seq (rules.getD i []) = true ∧
      ∀ k, k < i → endsWith seq (rules.getD k []) = false := by
  induction rules generalizing i with
  | nil => simp [firstMatch] at h
  | cons r rs ih =>
    rw [firstMatch] at h
    cases he : endsWith seq r with
    | true =>
      rw [he, if_pos rfl] at h
      injection h with h0
      subst h0
      exact ⟨Nat.succ_pos _, he, fun k hk => absurd hk (Nat.not_lt_zero k)⟩
    | false =>
      rw [he] at h
      simp only [Bool.false_eq_true, if_false, Option.map_eq_some'] at h
      obtain ⟨j, hj, rfl⟩ := h
      obtain ⟨hlen, hend, hmin⟩ := ih j hj
      refine ⟨Nat.succ_lt_succ hlen, hend, ?_⟩
      intro k hk
      cases k with
      | zero => exact he
      | succ k => exact hmin k (Nat.lt_of_succ_lt_succ hk)

theorem matchSequence_frame (s : PortSequenceDetector) (c : String) (t : Nat)
    (o : MatchOutcome) (s' : PortSequenceDetector)
    (h : matchSequence s c t = some (o, s')) :
    s'.sequence_set = s.sequence_set ∧ s'.sequence_rules = s.sequence_rules ∧
    s'.timeout = s.timeout ∧
    ∀ c₀, s'.client_sequences c₀ = s.client_sequences c₀ ∨
      s'.client_sequences c₀ = some [] := by
  unfold matchSequence at h
  cases hcs : s.client_sequences c
  case none =>
    simp only [hcs, Option.some.injEq, Prod.mk.injEq] at h
    obtain ⟨rfl, rfl⟩ := h
    exact ⟨rfl, rfl, rfl, fun _ => Or.inl rfl⟩
  case some seq =>
    simp only [hcs] at h
    cases hfm : firstMatch s.sequence_rules seq
    case some i =>
      simp only [hfm, Option.some.injEq, Prod.mk.injEq] at h
      obtain ⟨rfl, rfl⟩ := h
      refine ⟨rfl, rfl, rfl, fun c₀ => ?_⟩
      by_cases hc : c₀ = c <;> simp [mapUpdate, hc]
    case none =>
      simp only [hfm] at h
      cases hct : s.client_timeout c
      case none =>
        simp only [hct, Option.some.injEq, Prod.mk.injEq] at h
        obtain ⟨rfl, rfl⟩ := h
        exact ⟨rfl, rfl, rfl, fun _ => Or.inl rfl⟩
      case some started =>
        simp only [hct] at h
        cases hsub : u64Sub t started
        case none =>
          simp only [hsub] at h
          cases h
        case some elapsed =>
          simp only [hsub] at h
          by_cases hto : s.timeout < elapsed
          · rw [if_pos hto] at h
            simp only [Option.some.injEq, Prod.mk.injEq] at h
            obtain ⟨rfl, rfl⟩ := h
            refine ⟨rfl, rfl, rfl, fun c₀ => ?_⟩
            by_cases hc : c₀ = c <;> simp [mapUpdate, hc]
          · rw [if_neg hto] at h
            simp only [Option.some.injEq, Prod.mk.injEq] at h
            obtain ⟨rfl, rfl⟩ := h
            exact ⟨rfl, rfl, rfl, fun _ => Or.inl rfl⟩

theorem u64Sub_eq_some (a b : Nat) (hle : b ≤ a) : u64Sub a b = some (a - b) := by
  unfold u64Sub
  rw [if_pos hle]

theorem u64Sub_eq_none (a b : Nat) (h : a < b) : u64Sub a b = none := by
  unfold u64Sub
  rw [if_neg (Nat.not_le.mpr h)]

theorem matchSequence_absent (s : PortSequenceDetector) (c : String) (t : Nat)
    (h : s.client_sequences c = none) :
    matchSequence s c t = some (⟨false, none⟩, s) := by
  unfold matchSequence
  rw [h]

theorem matchSequence_match (s : PortSequenceDetector) (c : String) (t : Nat)
    (seq : List Int) (i : Nat)
    (hseq : s.client_sequences c = some seq)
    (hfm : firstMatch s.sequence_rules seq = some i) :
    matchSequence s c t = some (⟨true, some i⟩,
      { s with client_sequences := mapUpdate s.client_sequences c (some []) }) := by
  unfold matchSequence
  rw [hseq]
  simp only [hfm]

theorem matchSequence_noClock (s : PortSequenceDetector) (c : String) (t : Nat)
    (seq : List Int)
    (hseq : s.client_sequences c = some seq)
    (hfm : firstMatch s.sequence_rules seq = none)
    (hct : s.client_timeout c = none) :
    matchSequence s c t = some (⟨false, none⟩, s) := by
  unfold matchSequence
  rw [hseq]
  simp only [hfm, hct]

theorem matchSequence_underflow (s : PortSequenceDetector) (c : String) (t : Nat)
    (seq : List Int) (started : Nat)
    (hseq : s.client_sequences c = some seq)
    (hfm : firstMatch s.sequence_rules seq = none)
    (hct : s.client_timeout c = some started)
    (hlt : t < started) :
    matchSequence s c t = none := by
  unfold matchSequence
  rw [hseq]
  simp only [hfm, hct, u64Sub_eq_none t started hlt]

theorem matchSequence_expired (s : PortSequenceDetector) (c : String) (t : Nat)
    (seq : List Int) (started : Nat)
    (hseq : s.client_sequences c = some seq)
    (hfm : firstMatch s.sequence_rules seq = none)
    (hct : s.client_timeout c = some started)
    (hle : started ≤ t)
    (hto : s.timeout < t - started) :
    matchSequence s c t = some (⟨false, none⟩,
      { s with
          client_sequences := mapUpdate s.client_sequences c (some [])
          client_timeout := mapUpdate s.client_timeout c none }) := by
  unfold matchSequence
  rw [hseq]
  simp only [hfm, hct, u64Sub_eq_some t started hle]
  rw [if_pos hto]

theorem matchSequence_notExpired (s : PortSequenceDetector) (c : String) (t : Nat)
    (seq : List Int) (started : Nat)
    (hseq : s.client_sequences c = some seq)
    (hfm : firstMatch s.sequence_rules seq = none)
    (hct : s.client_timeout c = some started)
    (hle : started ≤ t)
    (hto : t - started ≤ s.timeout) :
    matchSequence s c t = some (⟨false, none⟩, s) := by
  unfold matchSequence
  rw [hseq]
  simp only [hfm, hct, u64Sub_eq_some t started hle]
  rw [if_neg (Nat.not_lt.mpr hto)]

theorem matchSequence_matched_inv (s : PortSequenceDetector) (c : String)
    (t : Nat) (o : MatchOutcome) (s' : PortSequenceDetector)
    (h : matchSequence s c t = some (o, s')) (hm : o.matched = true) :
    ∃ seq i, s.client_sequences c = some seq ∧
      firstMatch s.sequence_rules seq = some i ∧
      o = ⟨true, some i⟩ ∧
      s' = { s with client_sequences := mapUpdate s.client_sequences c (some []) } := by
  cases hcs : s.client_sequences c
  case none =>
    rw [matchSequence_absent s c t hcs] at h
    simp only [Option.some.injEq, Prod.mk.injEq] at h
    obtain ⟨rfl, rfl⟩ := h
    simp at hm
  case some seq =>
    cases hfm : firstMatch s.sequence_rules seq
    case some i =>
      rw [matchSequence_match s c t seq i hcs hfm] at h
      simp only [Option.some.injEq, Prod.mk.injEq] at h
      obtain ⟨rfl, rfl⟩ := h
      exact ⟨seq, i, rfl, hfm, rfl, rfl⟩
    case none =>
      cases hct : s.client_timeout c
      case none =>
        rw [matchSequence_noClock s c t seq hcs hfm hct] at h
        simp only [Option.some.injEq, Prod.mk.injEq] at h
        obtain ⟨rfl, rfl⟩ := h
        simp at hm
      case some started =>
        rcases Nat.lt_or_ge t started with hlt | hge
        · rw [matchSequence_underflow s c t seq started hcs hfm hct hlt] at h
          cases h
        · by_cases hto : s.timeout < t - started
          · rw [matchSequence_expired s c t seq started hcs hfm hct hge hto] at h
            simp only [Option.some.injEq, Prod.mk.injEq] at h
            obtain ⟨rfl, rfl⟩ := h
            simp at hm
          · rw [matchSequence_notExpired s c t seq started hcs hfm hct hge
                (Nat.not_lt.mp hto)] at h
            simp only [Option.some.injEq, Prod.mk.injEq] at h
            obtain ⟨rfl, rfl⟩ := h
            simp at hm

theorem mem_foldl_insert (l : List Int) (acc : Finset Int) (p : Int) :
    p ∈ l.foldl (fun a q => insert q a) acc ↔ p ∈ acc ∨ p ∈ l := by
  induction l generalizing acc with
  | nil => simp
  | cons q qs ih =>
    rw [List.foldl_cons, ih]
    simp only [Finset.mem_insert, List.mem_cons]
    tauto

theorem mem_rules_fold (rules : List Rule) (acc : Finset Int) (p : Int) :
    p ∈ rules.foldl
        (fun acc rule => rule.sequence.foldl (fun a q => insert q a) acc) acc ↔
      p ∈ acc ∨ ∃ rule ∈ rules, p ∈ rule.sequence := by
  induction rules generalizing acc with
  | nil => simp
  | cons r rs ih =>
    rw [List.foldl_cons, ih, mem_foldl_insert]
    simp only [List.mem_cons]
    constructor
    · rintro (⟨h | h⟩ | ⟨rule, hmem, hp⟩)
      · exact Or.inl h
      · exact Or.inr ⟨r, Or.inl rfl, h⟩
      · exact Or.inr ⟨rule, Or.inr hmem, hp⟩
    · rintro (h | ⟨rule, (rfl | hmem), hp⟩)
      · exact Or.inl (Or.inl h)
      · exact Or.inl (Or.inr hp)
      · exact Or.inr ⟨rule, hmem, hp⟩

/-! ### Claims -/

/-- C1: For every accumulated sequence and every rule, `ends_with` holds if
and only if the rule's full port sequence is an exact, ordered, contiguous
tail (suffix) of the accumulated sequence; a sequence strictly shorter than
the rule never matches, and `[1,3]` does not match rule `[1,2,3]`. -/
theorem c1_suffix_match_semantics (v r : List Int) :
    (endsWith v r = true ↔ r <:+ v) ∧
    (v.length < r.length → endsWith v r = false) ∧
    endsWith [1, 3] [1, 2, 3] = false := by
  refine ⟨endsWith_iff v r, ?_, by decide⟩
  intro hlen
  unfold endsWith
  rw [decide_eq_false (Nat.not_le.mpr hlen), Bool.false_and]

/-- Witness for C1 at the spec's concrete examples. -/
theorem c1_suffix_match_semantics_witness :
    (endsWith [9, 1, 2, 3] [1, 2, 3] = true ↔
      ([1, 2, 3] : List Int) <:+ [9, 1, 2, 3]) ∧
    ([9, 1, 2, 3].length < [1, 2, 3].length →
      endsWith [9, 1, 2, 3] [1, 2, 3] = false) ∧
    endsWith [1, 3] [1, 2, 3] = false :=
  c1_suffix_match_semantics [9, 1, 2, 3] [1, 2, 3]

/-- C2: When some rule's sequence is a suffix of the client's accumulated
sequence, `match_sequence` returns `true`, reports the rule of lowest
configuration index whose sequence is a suffix (testing no earlier-failing
rule further: every rule before the reported one is not a suffix), and
clears that client's sequence to empty. -/
theorem c2_first_match_and_tiebreak (s : PortSequenceDetector) (c : String)
    (t : Nat) (seq : List Int) (j : Nat)
    (hseq : s.client_sequences c = some seq)
    (hj : j < s.sequence_rules.length)
    (hmatch : endsWith seq (s.sequence_rules.getD j []) = true) :
    ∃ i s',
      matchSequence s c t = some (⟨true, some i⟩, s') ∧
      i ≤ j ∧
      endsWith seq (s.sequence_rules.getD i []) = true ∧
      (∀ k, k < i → endsWith seq (s.sequence_rules.getD k []) = false) ∧
      s'.client_sequences c = some [] := by
  have hmem : s.sequence_rules.getD j [] ∈ s.sequence_rules := by
    rw [List.getD_eq_getElem s.sequence_rules [] hj]
    exact List.getElem_mem hj
  obtain ⟨i, hi⟩ := firstMatch_exists s.sequence_rules seq _ hmem hmatch
  obtain ⟨hilen, hiend, hmin⟩ := firstMatch_spec s.sequence_rules seq i hi
  have hij : i ≤ j := by
    by_contra hij
    push_neg at hij
    have hj' := hmin j hij
    rw [hmatch] at hj'
    cases hj'
  refine ⟨i, _, matchSequence_match s c t seq i hseq hi, hij, hiend, hmin, ?_⟩
  simp [mapUpdate]

/-- Witness for C2: `[1,3,5,6]` against rules `[[1,2,3],[3,5,6]]` reports
rule index 1 and clears the sequence. -/
theorem c2_first_match_and_tiebreak_witness :
    exampleTracking.client_sequences ip1 = some [1, 3, 5, 6] ∧
    1 < exampleTracking.sequence_rules.length ∧
    endsWith [1, 3, 5, 6] (exampleTracking.sequence_rules.getD 1 []) = true ∧
    ∃ i s',
      matchSequence exampleTracking ip1 101 = some (⟨true, some i⟩, s') ∧
      i ≤ 1 ∧
      endsWith [1, 3, 5, 6] (exampleTracking.sequence_rules.getD i []) = true ∧
      (∀ k, k < i →
        endsWith [1, 3, 5, 6] (exampleTracking.sequence_rules.getD k []) = false) ∧
      s'.client_sequences ip1 = some [] :=
  ⟨rfl, by decide, by decide,
    c2_first_match_and_tiebreak exampleTracking ip1 101 [1, 3, 5, 6] 1
      rfl (by decide) (by decide)⟩

/-- C3: During a match check where the client's sequence is tracked and no
rule's sequence is a suffix of it, if a start time is recorded and
`current_time - start_time` strictly exceeds the timeout, the sequence is
cleared, the start-time entry is removed, and `false` is returned; if the
elapsed time does not strictly exceed the timeout, the state is returned
unchanged with `false`. -/
theorem c3_expiry_behaviour (s : PortSequenceDetector) (c : String)
    (t : Nat) (seq : List Int) (started : Nat)
    (hseq : s.client_sequences c = some seq)
    (hnom : ∀ r ∈ s.sequence_rules, endsWith seq r = false)
    (hct : s.client_timeout c = some started)
    (hle : started ≤ t) :
    (s.timeout < t - started →
      ∃ s', matchSequence s c t = some (⟨false, none⟩, s') ∧
        s'.client_sequences c = some [] ∧ s'.client_timeout c = none) ∧
    (t - started ≤ s.timeout →
      matchSequence s c t = some (⟨false, none⟩, s)) := by
  have hfm : firstMatch s.sequence_rules seq = none :=
    (firstMatch_eq_none_iff s.sequence_rules seq).mpr hnom
  constructor
  · intro hto
    exact ⟨_, matchSequence_expired s c t seq started hseq hfm hct hle hto,
      by simp [mapUpdate], by simp [mapUpdate]⟩
  · intro hto
    exact matchSequence_notExpired s c t seq started hseq hfm hct hle hto

/-- Witness for C3: `[1,3]` matches no rule; at time 106 with start time
100 and timeout 5 the cycle is expired. -/
theorem c3_expiry_behaviour_witness :
    exampleStalled.client_sequences ip1 = some [1, 3] ∧
    (∀ r ∈ exampleStalled.sequence_rules, endsWith [1, 3] r = false) ∧
    exampleStalled.client_timeout ip1 = some 100 ∧
    100 ≤ 106 ∧
    ((exampleStalled.timeout < 106 - 100 →
      ∃ s', matchSequence exampleStalled ip1 106 = some (⟨false, none⟩, s') ∧
        s'.client_sequences ip1 = some [] ∧ s'.client_timeout ip1 = none) ∧
     (106 - 100 ≤ exampleStalled.timeout →
       matchSequence exampleStalled ip1 106 = some (⟨false, none⟩, exampleStalled))) :=
  ⟨rfl, by decide, rfl, by decide,
    c3_expiry_behaviour exampleStalled ip1 106 [1, 3] 100 rfl (by decide)
      rfl (by decide)⟩

/-- C4: Recording a port not in `sequence_set` leaves the engine state
unchanged (and performs no match check, the state being returned as-is);
consequently `add_sequence` preserves the invariant that every port stored
in any client's accumulated sequence belongs to `sequence_set`. -/
theorem c4_irrelevant_port_noop (s : PortSequenceDetector) (c : String)
    (p : Int) (t : Nat) :
    (p ∉ s.sequence_set → addSequence s c p t = some s) ∧
    ((∀ c₀ seq₀, s.client_sequences c₀ = some seq₀ →
        ∀ q ∈ seq₀, q ∈ s.sequence_set) →
      ∀ s₀, addSequence s c p t = some s₀ →
        ∀ c₀ seq₀, s₀.client_sequences c₀ = some seq₀ →
          ∀ q ∈ seq₀, q ∈ s₀.sequence_set) := by
  constructor
  · intro hp
    unfold addSequence
    rw [if_neg hp]
  · intro hinv s₀ hadd c₀ seq₀ hseq₀ q hq
    by_cases hp : p ∈ s.sequence_set
    · unfold addSequence at hadd
      rw [if_pos hp] at hadd
      simp only [Option.map_eq_some'] at hadd
      obtain ⟨⟨o, s₂⟩, hms, hs₀⟩ := hadd
      obtain rfl : s₂ = s₀ := hs₀
      obtain ⟨hset, -, -, hcases⟩ := matchSequence_frame _ c t o _ hms
      rw [hset]
      have hs1inv : ∀ c₁ seq₁,
          mapUpdate s.client_sequences c
            (some (((s.client_sequences c).getD []) ++ [p])) c₁ = some seq₁ →
          ∀ q₁ ∈ seq₁, q₁ ∈ s.sequence_set := by
        intro c₁ seq₁ h₁ q₁ hq₁
        unfold mapUpdate at h₁
        by_cases hc : c₁ = c
        · rw [if_pos hc] at h₁
          injection h₁ with h₁
          subst h₁
          rcases List.mem_append.mp hq₁ with hmem | hmem
          · cases hcs : s.client_sequences c with
            | none =>
              rw [hcs] at hmem
              cases hmem
            | some l =>
              rw [hcs] at hmem
              exact hinv c l hcs q₁ hmem
          · rw [List.mem_singleton.mp hmem]
            exact hp
        · rw [if_neg hc] at h₁
          exact hinv c₁ seq₁ h₁ q₁ hq₁
      rcases hcases c₀ with hsame | hempty
      · rw [hsame] at hseq₀
        exact hs1inv c₀ seq₀ hseq₀ q hq
      · rw [hempty] at hseq₀
        injection hseq₀ with hseq₀
        subst hseq₀
        cases hq
    · unfold addSequence at hadd
      rw [if_neg hp] at hadd
      injection hadd with hadd
      subst hadd
      exact hinv c₀ seq₀ hseq₀ q hq

/-- Witness for C4: port 9 appears in no rule of `exampleTracking`, and
recording it for a fresh client returns the state unchanged. -/
theorem c4_irrelevant_port_noop_witness :
    (9 : Int) ∉ exampleTracking.sequence_set ∧
    addSequence exampleTracking ipNoise 9 0 = some exampleTracking :=
  ⟨by decide, (c4_irrelevant_port_noop exampleTracking ipNoise 9 0).1 (by decide)⟩

/-- C5 counterexample: in a state where client `ipStale`'s tracked
sequence is present but empty and a stale start time (0) older than the
timeout is recorded, the match check at time 100 returns no match but
does NOT leave the state unchanged: it removes the start-time entry,
refuting the claim that the check mutates no engine state for a client
with an absent-or-empty sequence. -/
theorem c5_idle_check_counterexample :
    c5State.client_sequences ipStale = some [] ∧
    c5State.client_timeout ipStale = some 0 ∧
    ∃ o s', matchSequence c5State ipStale 100 = some (o, s') ∧
      o.matched = false ∧ s'.client_timeout ipStale = none :=
  ⟨rfl, rfl, ⟨false, none⟩, _, rfl, rfl, rfl⟩

/-- C5 (amended): a match check for a client with an ABSENT sequence is a
pure no-op returning no match; for a client with a present-but-EMPTY
sequence (all rules being non-empty) it returns no match and leaves the
sequence empty, and the state is unchanged only when no recorded start
time has expired — if a recorded start time is older than the timeout,
the expiry branch still runs and removes the start-time entry. -/
theorem c5_idle_check_amended (s : PortSequenceDetector) (c : String) (t : Nat) :
    (s.client_sequences c = none →
      matchSequence s c t = some (⟨false, none⟩, s)) ∧
    (s.client_sequences c = some [] →
      (∀ r ∈ s.sequence_rules, r ≠ ([] : List Int)) →
      (∀ started, s.client_timeout c = some started → started ≤ t) →
      ∃ s', matchSequence s c t = some (⟨false, none⟩, s') ∧
        s'.client_sequences c = some [] ∧
        ((∀ started, s.client_timeout c = some started →
            t - started ≤ s.timeout) → s' = s) ∧
        (∀ started, s.client_timeout c = some started →
          s.timeout < t - started → s'.client_timeout c = none)) := by
  constructor
  · exact matchSequence_absent s c t
  · intro hseq hrules hclock
    have hfm : firstMatch s.sequence_rules [] = none := by
      rw [firstMatch_eq_none_iff]
      intro r hr
      have hne := hrules r hr
      cases r with
      | nil => exact absurd rfl hne
      | cons a as =>
        unfold endsWith
        rw [decide_eq_false (by simp), Bool.false_and]
    cases hct : s.client_timeout c with
    | none =>
      refine ⟨s, matchSequence_noClock s c t [] hseq hfm hct, hseq,
        fun _ => rfl, ?_⟩
      intro started h
      cases h
    | some started =>
      have hle := hclock started hct
      by_cases hto : s.timeout < t - started
      · refine ⟨_, matchSequence_expired s c t [] started hseq hfm hct hle hto,
          by simp [mapUpdate], ?_, ?_⟩
        · intro hall
          have hcontra := hall started rfl
          omega
        · intro st hst hlt
          simp [mapUpdate]
      · refine ⟨s, matchSequence_notExpired s c t [] started hseq hfm hct hle
          (Nat.not_lt.mp hto), hseq, fun _ => rfl, ?_⟩
        intro st hst hlt
        injection hst with hst
        subst hst
        exact absurd hlt hto

/-- Witness for the amended C5 at the concrete stale state. -/
theorem c5_idle_check_amended_witness :
    c5State.client_sequences ipStale = some [] ∧
    (∀ r ∈ c5State.sequence_rules, r ≠ ([] : List Int)) ∧
    (∀ started, c5State.client_timeout ipStale = some started → started ≤ 100) ∧
    ∃ s', matchSequence c5State ipStale 100 = some (⟨false, none⟩, s') ∧
      s'.client_sequences ipStale = some [] ∧
      ((∀ started, c5State.client_timeout ipStale = some started →
          100 - started ≤ c5State.timeout) → s' = c5State) ∧
      (∀ started, c5State.client_timeout ipStale = some started →
        c5State.timeout < 100 - started → s'.client_timeout ipStale = none) := by
  have hclock : ∀ started, c5State.client_timeout ipStale = some started →
      started ≤ 100 := by
    intro st hst
    have h0 : c5State.client_timeout ipStale = some 0 := rfl
    rw [h0] at hst
    injection hst with hst
    omega
  exact ⟨rfl, by decide, hclock,
    (c5_idle_check_amended c5State ipStale 100).2 rfl (by decide) hclock⟩

/-- C6: For a port in `sequence_set`, `add_sequence` appends the port to
the client's sequence (creating the entry, so a previously-unseen client
gets the one-element sequence `[port]`), sets the start time to the
current wall-clock time only if no start time is recorded (keeping any
existing one), leaves every other client untouched, and then
unconditionally invokes the match check for that client on the recorded
state. -/
theorem c6_first_observation (s : PortSequenceDetector) (c : String)
    (p : Int) (t : Nat) (hp : p ∈ s.sequence_set) :
    ∃ s1 : PortSequenceDetector,
      s1.client_sequences c = some (((s.client_sequences c).getD []) ++ [p]) ∧
      (s.client_sequences c = none → s1.client_sequences c = some [p]) ∧
      s1.client_timeout c = some ((s.client_timeout c).getD t) ∧
      (∀ t0, s.client_timeout c = some t0 → s1.client_timeout c = some t0) ∧
      (∀ c₀, c₀ ≠ c → s1.client_sequences c₀ = s.client_sequences c₀ ∧
        s1.client_timeout c₀ = s.client_timeout c₀) ∧
      addSequence s c p t = (matchSequence s1 c t).map (fun r => r.2) := by
  refine ⟨{ s with
      client_sequences := mapUpdate s.client_sequences c
        (some (((s.client_sequences c).getD []) ++ [p]))
      client_timeout := mapUpdate s.client_timeout c
        (some (match s.client_timeout c with
               | some t0 => t0
               | none => t)) }, ?_, ?_, ?_, ?_, ?_, ?_⟩
  · simp [mapUpdate]
  · intro h
    simp [mapUpdate, h]
  · cases h : s.client_timeout c <;> simp [mapUpdate, h]
  · intro t0 h
    simp [mapUpdate, h]
  · intro c₀ hc
    constructor <;> simp [mapUpdate, hc]
  · unfold addSequence
    rw [if_pos hp]

/-- Witness for C6: recording port 3 for a fresh client on a freshly
constructed detector. -/
theorem c6_first_observation_witness :
    (3 : Int) ∈ exampleDetector.sequence_set ∧
    ∃ s1 : PortSequenceDetector,
      s1.client_sequences ip1 =
        some (((exampleDetector.client_sequences ip1).getD []) ++ [3]) ∧
      (exampleDetector.client_sequences ip1 = none →
        s1.client_sequences ip1 = some [3]) ∧
      s1.client_timeout ip1 = some ((exampleDetector.client_timeout ip1).getD 42) ∧
      (∀ t0, exampleDetector.client_timeout ip1 = some t0 →
        s1.client_timeout ip1 = some t0) ∧
      (∀ c₀, c₀ ≠ ip1 →
        s1.client_sequences c₀ = exampleDetector.client_sequences c₀ ∧
        s1.client_timeout c₀ = exampleDetector.client_timeout c₀) ∧
      addSequence exampleDetector ip1 3 42 =
        (matchSequence s1 ip1 42).map (fun r => r.2) :=
  ⟨by decide, c6_first_observation exampleDetector ip1 3 42 (by decide)⟩

/-- C7: `new` collects the rules' sequences in configuration order, builds
`sequence_set` as the union of all ports across all rules (the example
config with rules `[1,2,3]` and `[3,5,6]` yields a set of size 5), copies
the timeout, starts with empty per-client maps, and an empty rule set
yields an empty relevant-port set and a detector for which no match ever
occurs. -/
theorem c7_construction (config : Config) :
    (PortSequenceDetector.new config).sequence_rules =
      config.rules.map (fun rule => rule.sequence) ∧
    (∀ p : Int, p ∈ (PortSequenceDetector.new config).sequence_set ↔
      ∃ rule ∈ config.rules, p ∈ rule.sequence) ∧
    (PortSequenceDetector.new config).timeout = config.timeout ∧
    (∀ c₀, (PortSequenceDetector.new config).client_sequences c₀ = none) ∧
    (∀ c₀, (PortSequenceDetector.new config).client_timeout c₀ = none) ∧
    (PortSequenceDetector.new exampleConfig).sequence_set.card = 5 ∧
    (config.rules = [] →
      (PortSequenceDetector.new config).sequence_set = ∅ ∧
      ∀ (s : PortSequenceDetector), s.sequence_rules = [] →
        ∀ c₀ t o s', matchSequence s c₀ t = some (o, s') →
          o.matched = false) := by
  refine ⟨rfl, ?_, rfl, fun _ => rfl, fun _ => rfl, by decide, ?_⟩
  · intro p
    have h := mem_rules_fold config.rules ∅ p
    simpa [PortSequenceDetector.new] using h
  · intro hrules
    constructor
    · have h0 : (PortSequenceDetector.new config).sequence_set =
          config.rules.foldl
            (fun acc rule => rule.sequence.foldl (fun a q => insert q a) acc)
            ∅ := rfl
      rw [h0, hrules]
      rfl
    · intro s hsr c₀ t o s' h
      cases hmo : o.matched
      · rfl
      · obtain ⟨seq, i, -, hfm, -, -⟩ :=
          matchSequence_matched_inv s c₀ t o s' h hmo
        rw [hsr] at hfm
        simp [firstMatch] at hfm

/-- Witness for C7 at the empty configuration. -/
theorem c7_construction_witness :
    emptyConfig.rules = [] ∧
    ((PortSequenceDetector.new emptyConfig).sequence_set = ∅ ∧
      ∀ (s : PortSequenceDetector), s.sequence_rules = [] →
        ∀ c₀ t o s', matchSequence s c₀ t = some (o, s') →
          o.matched = false) :=
  ⟨rfl, (c7_construction emptyConfig).2.2.2.2.2.2 rfl⟩

/-- C8: On a successful match, only the matching client's sequence is
cleared (to empty); the entire start-time map is unchanged — the matching
client's stale start timestamp stays in place — and all other clients'
sequences as well as the immutable fields are unchanged. -/
theorem c8_match_keeps_clock (s : PortSequenceDetector) (c : String)
    (t : Nat) (o : MatchOutcome) (s' : PortSequenceDetector)
    (h : matchSequence s c t = some (o, s')) (hm : o.matched = true) :
    s'.client_timeout = s.client_timeout ∧
    s'.client_sequences c = some [] ∧
    (∀ c₀, c₀ ≠ c → s'.client_sequences c₀ = s.client_sequences c₀) ∧
    s'.timeout = s.timeout ∧
    s'.sequence_set = s.sequence_set ∧
    s'.sequence_rules = s.sequence_rules := by
  obtain ⟨seq, i, hcs, hfm, rfl, rfl⟩ :=
    matchSequence_matched_inv s c t o s' h hm
  refine ⟨rfl, by simp [mapUpdate], ?_, rfl, rfl, rfl⟩
  intro c₀ hc
  simp [mapUpdate, hc]

/-- Witness for C8 at a concrete matching state. -/
theorem c8_match_keeps_clock_witness :
    matchSequence exampleTracking ip1 101 =
      some (⟨true, some 1⟩, exampleCleared) ∧
    (exampleCleared.client_timeout = exampleTracking.client_timeout ∧
     exampleCleared.client_sequences ip1 = some [] ∧
     (∀ c₀, c₀ ≠ ip1 →
       exampleCleared.client_sequences c₀ = exampleTracking.client_sequences c₀) ∧
     exampleCleared.timeout = exampleTracking.timeout ∧
     exampleCleared.sequence_set = exampleTracking.sequence_set ∧
     exampleCleared.sequence_rules = exampleTracking.sequence_rules) :=
  ⟨rfl, c8_match_keeps_clock exampleTracking ip1 101 ⟨true, some 1⟩
    exampleCleared rfl rfl⟩

/-- C9: The match check is total: for every state and client, provided
every recorded start time for that client is not after the current time
(the `u64` subtraction cannot underflow), the call returns a value and
does not abort. -/
theorem c9_totality (s : PortSequenceDetector) (c : String) (t : Nat)
    (h : ∀ started, s.client_timeout c = some started → started ≤ t) :
    (matchSequence s c t).isSome = true := by
  cases hcs : s.client_sequences c with
  | none => rw [matchSequence_absent s c t hcs]; rfl
  | some seq =>
    cases hfm : firstMatch s.sequence_rules seq with
    | some i => rw [matchSequence_match s c t seq i hcs hfm]; rfl
    | none =>
      cases hct : s.client_timeout c with
      | none => rw [matchSequence_noClock s c t seq hcs hfm hct]; rfl
      | some started =>
        have hle := h started hct
        by_cases hto : s.timeout < t - started
        · rw [matchSequence_expired s c t seq started hcs hfm hct hle hto]
          rfl
        · rw [matchSequence_notExpired s c t seq started hcs hfm hct hle
            (Nat.not_lt.mp hto)]
          rfl

/-- Witness for C9 at a concrete tracked state. -/
theorem c9_totality_witness :
    (∀ started, exampleStalled.client_timeout ip1 = some started →
      started ≤ 106) ∧
    (matchSequence exampleStalled ip1 106).isSome = true := by
  have hcl : ∀ started, exampleStalled.client_timeout ip1 = some started →
      started ≤ 106 := by
    intro st hst
    have h0 : exampleStalled.client_timeout ip1 = some 100 := rfl
    rw [h0] at hst
    injection hst with hst
    omega
  exact ⟨hcl, c9_totality exampleStalled ip1 106 hcl⟩

/-- C10: If the client's tracked sequence ends with some rule's full
sequence, the match check reports a match and clears the sequence at
EVERY current time (no matter how much time has elapsed), and the
client's start-time entry is not removed: match takes precedence over
expiry. -/
theorem c10_match_precedes_expiry (s : PortSequenceDetector) (c : String)
    (t : Nat) (seq r : List Int)
    (hseq : s.client_sequences c = some seq)
    (hr : r ∈ s.sequence_rules)
    (hm : endsWith seq r = true) :
    ∃ i s', matchSequence s c t = some (⟨true, some i⟩, s') ∧
      s'.client_sequences c = some [] ∧
      s'.client_timeout c = s.client_timeout c := by
  obtain ⟨i, hi⟩ := firstMatch_exists s.sequence_rules seq r hr hm
  exact ⟨i, _, matchSequence_match s c t seq i hseq hi,
    by simp [mapUpdate], rfl⟩

/-- Witness for C10: the match still fires at wall-clock time 999999,
far beyond the 5-second timeout window opened at time 100. -/
theorem c10_match_precedes_expiry_witness :
    exampleTracking.client_sequences ip1 = some [1, 3, 5, 6] ∧
    [3, 5, 6] ∈ exampleTracking.sequence_rules ∧
    endsWith [1, 3, 5, 6] [3, 5, 6] = true ∧
    ∃ i s', matchSequence exampleTracking ip1 999999 =
        some (⟨true, some i⟩, s') ∧
      s'.client_sequences ip1 = some [] ∧
      s'.client_timeout ip1 = exampleTracking.client_timeout ip1 :=
  ⟨rfl, by decide, by decide,
    c10_match_precedes_expiry exampleTracking ip1 999999 [1, 3, 5, 6]
      [3, 5, 6] rfl (by decide) (by decide)⟩

end KnockRs
